import Mathlib

/-!
Shallow embedding of the RAVEN `ROM` façade (`framework/Models/ROM.py`) and of the
`LinearDiscriminantAnalysisClassifier` input handling
(`framework/SupervisedLearning/ScikitLearn/DiscriminantAnalysis/LinearDiscriminantAnalysis.py`).

The façade shuffles data between a training set, a list of backend instances
(`supervisedContainer`) and result dictionaries; no numerics of the wrapped
estimators matter to the orchestration logic, so numeric entries are modelled
as `Int`.  Python dictionaries are modelled as association lists with lookup by
key; Python exceptions are modelled with `Except`, and `train` (which mutates
the façade in place before it can raise) returns the partially-mutated state
alongside the error.
-/

/-- Errors raised by the façade or its collaborators.  `notLoaded` and
`notTrained` are the two `RuntimeError`s of `ROM.evaluate`; `pivotMissing`,
`pivotNotAList`, `emptyTrainingSet` and `misalignedData` are the
data-consistency `IOError`s of `ROM.train`; `keyError` / `indexError` model the
corresponding Python built-in exceptions; `backendNotTrained` is the state
error a backend raises when `run` is called before `train`;
`assertionError` models a failed `assert`. -/
inductive RomError where
  | notLoaded
  | notTrained
  | pivotMissing
  | pivotNotAList
  | emptyTrainingSet
  | misalignedData
  | keyError
  | indexError
  | backendNotTrained
  | assertionError
deriving DecidableEq, Repr

/-- A value of the training set: either a flat numeric sequence (static case,
a numpy array in the source) or a sequence of per-realization sequences (the
time-dependent case, a Python `list` in the source; `ROM.train` detects the
dynamic case by `type(x).__name__ == 'list'`). -/
inductive TSValue where
  | flat (xs : List Int)
  | hist (rlz : List (List Int))
deriving DecidableEq, Repr

/-- `type(x).__name__ == 'list'` on a training-set value. -/
def TSValue.isHist : TSValue → Bool
  | .hist _ => true
  | .flat _ => false

/-- A training set: mapping from variable name to value (a Python dict). -/
abbrev TrainingSet := List (String × TSValue)

/-- An evaluation request: mapping from feature name to query points. -/
abbrev Request := List (String × List Int)

/-- A result dictionary: mapping from target name to a numeric array. -/
abbrev ResultDict := List (String × List Int)

/-- Python dict lookup on an association list. -/
def alookup {α : Type} : List (String × α) → String → Option α
  | [], _ => none
  | (k, v) :: rest, key => if k = key then some v else alookup rest key

/-- `any(type(x).__name__ == 'list' for x in trainingSet.values())`. -/
def isDynamicSet (ts : TrainingSet) : Bool :=
  ts.any (fun p => p.2.isHist)

/-- A backend instance (a `SupervisedLearning` engine).  The engine code is not
part of the reviewed sources; only the lifecycle the façade relies on is
modelled: the configured type, the trained flag, the list of training sets the
instance has been fitted on (most recent last), the assembler objects pushed
into it by `setAssembledObjects`, and its seed. -/
structure Backend where
  subType : String
  trained : Bool
  fitHistory : List TrainingSet
  assembled : List (String × String)
  seed : Option Int
deriving DecidableEq, Repr

/-- Modelled from the spec: backend `train(data)` fits the held estimator and
sets trained = true; a second call re-fits (the fit history records each call). -/
def Backend.train (b : Backend) (ts : TrainingSet) : Backend :=
  { b with trained := true, fitHistory := b.fitHistory ++ [ts] }

/-- Modelled from the spec: backend `reset()` clears fitted state. -/
def Backend.reset (b : Backend) : Backend :=
  { b with trained := false, fitHistory := [] }

/-- Modelled from the spec: backend `setAssembledObjects` stores the façade's
assembler table on the instance. -/
def Backend.setAssembledObjects (b : Backend) (d : List (String × String)) : Backend :=
  { b with assembled := d }

/-- Modelled from the spec: backend `run(data)` produces predictions and fails
with a state error if called before `train`.  The backend-specific prediction
function `predict` is a parameter of the model. -/
def Backend.run (predict : Backend → Request → ResultDict) (b : Backend)
    (req : Request) : Except RomError ResultDict :=
  if b.trained then .ok (predict b req) else .error .backendNotTrained

/-- Modelled from the spec: `interfaceFactory.returnInstance(name)` produces a
fresh, unconfigured backend instance of the named type. -/
def returnInstance (name : String) : Backend :=
  { subType := name, trained := false, fitHistory := [], assembled := [], seed := none }

/-- The state of the `ROM` façade (the attributes of `ROM.__init__` that the
train/evaluate/reset/serialize logic reads or writes). -/
structure ROMState where
  name : String
  subType : String
  amITrained : Bool
  pickled : Bool
  segment : Bool
  canHandleDynamicData : Bool
  isADynamicModel : Bool
  pivotParameterId : String
  supervisedContainer : List Backend
  historySteps : List Int
  trainingSet : Option TrainingSet
  seed : Option Int
  assemblerDict : List (String × String)
deriving DecidableEq, Repr

/-- The inner loop of `ROM.evaluate`: `resultsDict[key] = np.append(resultsDict[key],
sliceEvaluation[key])` over the keys of the accumulated dictionary; a key
absent from the slice raises a `KeyError`. -/
def appendEach (slice : ResultDict) : ResultDict → Except RomError ResultDict
  | [] => .ok []
  | (k, v) :: rest =>
    match alookup slice k with
    | none => .error .keyError
    | some w =>
      match appendEach slice rest with
      | .error e => .error e
      | .ok r => .ok ((k, v ++ w) :: r)

/-- One step of `ROM.evaluate`'s accumulation: an empty accumulated dictionary
is replaced wholesale (`resultsDict.update(sliceEvaluation)`), otherwise each
existing key is extended. -/
def accumulateSlice (acc slice : ResultDict) : Except RomError ResultDict :=
  if acc.isEmpty then .ok slice else appendEach slice acc

/-- The `for rom in self.supervisedContainer` loop of `ROM.evaluate`. -/
def evalLoop (predict : Backend → Request → ResultDict) (req : Request) :
    List Backend → ResultDict → Except RomError ResultDict
  | [], acc => .ok acc
  | b :: rest, acc =>
    match Backend.run predict b req with
    | .error e => .error e
    | .ok slice =>
      match accumulateSlice acc slice with
      | .error e => .error e
      | .ok acc2 => evalLoop predict req rest acc2

/-- `ROM.evaluate(request)`: raise "not loaded" on a pickled placeholder, raise
"not trained" if the trained flag is unset, then either delegate to the single
segmentation wrapper or iterate the container, concatenating per-target
results.  (The final `np.atleast_1d` pass is the identity here because slice
values are already arrays.) -/
def ROMState.evaluate (r : ROMState) (predict : Backend → Request → ResultDict)
    (req : Request) : Except RomError ResultDict :=
  if r.pickled then .error .notLoaded
  else if r.amITrained = false then .error .notTrained
  else if r.segment then
    match r.supervisedContainer with
    | [] => .error .indexError
    | b :: _ => Backend.run predict b req
  else evalLoop predict req r.supervisedContainer []

/-- `ROM.reset()`: reset every held backend instance and clear the trained
flag (the container itself keeps its length). -/
def ROMState.reset (r : ROMState) : ROMState :=
  { r with supervisedContainer := r.supervisedContainer.map Backend.reset,
           amITrained := false }

/-- The per-timestep slice of a training set: for each time-dependent variable,
the value of each realization at step `i`; static variables pass through. -/
def snapShot (ts : TrainingSet) (i : Nat) : TrainingSet :=
  ts.map (fun p => (p.1, match p.2 with
    | .flat xs => TSValue.flat xs
    | .hist rlz => TSValue.flat (rlz.map (fun seq => seq.getD i 0))))

/-- Modelled from the spec: `mathUtils.historySnapShoots` (not under the
reviewed sources) slices a time-dependent training set into `numSteps`
per-timestep static datasets aligned against the pivot variable, and fails
with a data-consistency error if realizations are not aligned to the common
pivot length. -/
def historySnapShoots (ts : TrainingSet) (numSteps : Nat) :
    Except RomError (List TrainingSet) :=
  if ts.all (fun p => match p.2 with
      | .flat _ => true
      | .hist rlz => rlz.all (fun seq => seq.length = numSteps)) then
    .ok ((List.range numSteps).map (fun i => snapShot ts i))
  else .error .misalignedData

/-- `self.supervisedContainer[-1].train(self.trainingSet)`: train the last
instance of the container. -/
def trainLast (l : List Backend) (ts : TrainingSet) : List Backend :=
  match l with
  | [] => []
  | [b] => [b.train ts]
  | b :: rest => b :: trainLast rest ts

/-- The body of `ROM.train` on a (dict) training set, factored over exactly the
façade fields it reads: segment flag, `canHandleDynamicData`, pivot name,
assembler table and container.  Returns the new container, whether the dynamic
branch was entered (`isADynamicModel` is set), and the new `historySteps` when
assigned; the error side carries the same partially-mutated components, since
the Python exceptions leave the in-place mutations behind. -/
def trainCore (seg canH : Bool) (pivot : String) (ad : List (String × String))
    (container : List Backend) (ts : TrainingSet) :
    Except (RomError × List Backend × Bool × Option (List Int))
           (List Backend × Bool × Option (List Int)) :=
  match container with
  | [] => .error (.indexError, [], false, none)
  | b :: rest =>
    let b0 := b.setAssembledObjects ad
    let cont := b0 :: rest
    if seg then
      .ok (b0.train ts :: rest, false, none)
    else if isDynamicSet ts then
      match alookup ts pivot with
      | none => .error (.pivotMissing, cont, true, none)
      | some (.flat _) => .error (.pivotNotAList, cont, true, none)
      | some (.hist rlz) =>
        match rlz.getLast? with
        | none => .error (.indexError, cont, true, none)
        | some hs =>
          if hs.isEmpty then .error (.emptyTrainingSet, cont, true, some hs)
          else if canH then
            .ok (trainLast cont ts, true, some hs)
          else
            match historySnapShoots ts hs.length with
            | .error e => .error (e, cont, true, some hs)
            | .ok slices => .ok (slices.map (fun s => b0.train s), true, some hs)
    else
      .ok (b0.train ts :: rest, false, none)

/-- The argument of `ROM.train`: either another `ROM` façade or a (dict)
training set. -/
inductive TrainArg where
  | rom (obj : ROMState)
  | data (ts : TrainingSet)

/-- `ROM.train(trainingSet)`.  A `ROM` argument is copied field-by-field
(training set, trained flag, container, seed); otherwise the training set is
stored and `trainCore` decides among the segment, dynamic and static branches;
on success the trained flag is set.  (`_inputToInternal` and the alias
replacement are identities on a plain dict with no aliases configured.) -/
def ROMState.train (r : ROMState) (arg : TrainArg) :
    Except (RomError × ROMState) ROMState :=
  match arg with
  | .rom obj =>
      .ok { r with trainingSet := obj.trainingSet, amITrained := obj.amITrained,
                   supervisedContainer := obj.supervisedContainer, seed := obj.seed }
  | .data ts =>
      match trainCore r.segment r.canHandleDynamicData r.pivotParameterId
            r.assemblerDict r.supervisedContainer ts with
      | .error (e, c, dyn, hs) =>
          .error (e, { r with trainingSet := some ts, supervisedContainer := c,
                              isADynamicModel := dyn || r.isADynamicModel,
                              historySteps := hs.getD r.historySteps })
      | .ok (c, dyn, hs) =>
          .ok { r with trainingSet := some ts, supervisedContainer := c,
                       isADynamicModel := dyn || r.isADynamicModel,
                       historySteps := hs.getD r.historySteps,
                       amITrained := true }

/-- The serialized form of a façade (`ROM.__getstate__`): every attribute
except the assembler table, which is always removed, and with the container
removed (`none`) when the façade is untrained. -/
structure SerializedROM where
  name : String
  subType : String
  amITrained : Bool
  pickled : Bool
  segment : Bool
  canHandleDynamicData : Bool
  isADynamicModel : Bool
  pivotParameterId : String
  supervisedContainer : Option (List Backend)
  historySteps : List Int
  trainingSet : Option TrainingSet
  seed : Option Int
deriving DecidableEq, Repr

/-- `ROM.__getstate__`: copy the attribute dictionary, pop the container when
untrained, and always delete the assembler table. -/
def ROMState.getstate (r : ROMState) : SerializedROM :=
  { name := r.name, subType := r.subType, amITrained := r.amITrained,
    pickled := r.pickled, segment := r.segment,
    canHandleDynamicData := r.canHandleDynamicData,
    isADynamicModel := r.isADynamicModel, pivotParameterId := r.pivotParameterId,
    supervisedContainer :=
      if r.amITrained then some r.supervisedContainer else none,
    historySteps := r.historySteps, trainingSet := r.trainingSet, seed := r.seed }

/-- `ROM.__setstate__`: restore the attribute dictionary; if the state was
untrained, rebuild the container as one fresh instance of the recorded backend
type; the assembler table is reinitialized empty. -/
def ROMState.setstate (d : SerializedROM) : ROMState :=
  { name := d.name, subType := d.subType, amITrained := d.amITrained,
    pickled := d.pickled, segment := d.segment,
    canHandleDynamicData := d.canHandleDynamicData,
    isADynamicModel := d.isADynamicModel, pivotParameterId := d.pivotParameterId,
    supervisedContainer :=
      if d.amITrained then d.supervisedContainer.getD []
      else [returnInstance d.subType],
    historySteps := d.historySteps, trainingSet := d.trainingSet, seed := d.seed,
    assemblerDict := [] }

/-- C1: on a façade that is not a pickled placeholder and is not trained,
`evaluate` raises the "has not been trained yet" state error and returns no
results, for every backend configuration, prediction function and request. -/
theorem evaluate_before_train_raises_state_error (r : ROMState)
    (predict : Backend → Request → ResultDict) (req : Request)
    (hp : r.pickled = false) (ht : r.amITrained = false) :
    r.evaluate predict req = .error .notTrained := by
  unfold ROMState.evaluate
  rw [hp, ht]
  simp

/-- Witness for C1 at a concrete untrained façade. -/
theorem evaluate_before_train_raises_state_error_witness :
    ({ name := "rom", subType := "svl", amITrained := false, pickled := false,
       segment := false, canHandleDynamicData := false, isADynamicModel := false,
       pivotParameterId := "time", supervisedContainer := [returnInstance "svl"],
       historySteps := [], trainingSet := none, seed := none,
       assemblerDict := [] } : ROMState).evaluate (fun _ _ => []) []
      = .error .notTrained :=
  evaluate_before_train_raises_state_error _ _ _ rfl rfl

/-- C5: on a façade in the pickled-placeholder state, `evaluate` raises the
explicit "not loaded" error — never the generic not-trained error — regardless
of the trained flag. -/
theorem evaluate_pickled_raises_not_loaded (r : ROMState)
    (predict : Backend → Request → ResultDict) (req : Request)
    (hp : r.pickled = true) :
    r.evaluate predict req = .error .notLoaded ∧
      RomError.notLoaded ≠ RomError.notTrained := by
  refine ⟨?_, by decide⟩
  unfold ROMState.evaluate
  rw [hp]
  simp

/-- Witness for C5 at a concrete pickled façade whose trained flag is set. -/
theorem evaluate_pickled_raises_not_loaded_witness :
    ({ name := "rom", subType := "pickledROM", amITrained := true, pickled := true,
       segment := false, canHandleDynamicData := false, isADynamicModel := false,
       pivotParameterId := "time", supervisedContainer := [returnInstance "pickledROM"],
       historySteps := [], trainingSet := none, seed := none,
       assemblerDict := [] } : ROMState).evaluate (fun _ _ => []) []
      = .error .notLoaded ∧ RomError.notLoaded ≠ RomError.notTrained :=
  evaluate_pickled_raises_not_loaded _ _ _ rfl

/-- C9: when the argument passed to `train` is itself a ROM façade, no fitting
occurs: the receiver copies the argument's training set, trained flag, backend
container and seed, so the receiver is trained iff the argument was. -/
theorem train_from_rom_copies_state (r obj : ROMState) :
    r.train (.rom obj) =
      .ok { r with trainingSet := obj.trainingSet, amITrained := obj.amITrained,
                   supervisedContainer := obj.supervisedContainer,
                   seed := obj.seed } :=
  rfl

/-- C8: serializing an untrained façade and restoring it yields a façade with
trained = false, holding exactly one fresh unfit backend instance of the
originally configured type and an empty assembler table; and the assembler
table never reaches the serialized state (trained or not). -/
theorem serialize_restore_untrained (r : ROMState) (h : r.amITrained = false) :
    ROMState.setstate (ROMState.getstate r) =
      { r with supervisedContainer := [returnInstance r.subType],
               assemblerDict := [] } ∧
    (returnInstance r.subType).trained = false ∧
    (returnInstance r.subType).fitHistory = [] ∧
    ∀ d, ROMState.getstate { r with assemblerDict := d } = ROMState.getstate r := by
  refine ⟨?_, rfl, rfl, fun d => rfl⟩
  unfold ROMState.setstate ROMState.getstate
  simp [h]

/-- Witness for C8 at a concrete untrained façade. -/
theorem serialize_restore_untrained_witness :
    ROMState.setstate (ROMState.getstate
      { name := "rom", subType := "svl", amITrained := false, pickled := false,
        segment := false, canHandleDynamicData := false, isADynamicModel := false,
        pivotParameterId := "time", supervisedContainer := [returnInstance "svl"],
        historySteps := [], trainingSet := none, seed := none,
        assemblerDict := [("CV", "cv1")] }) =
      { name := "rom", subType := "svl", amITrained := false, pickled := false,
        segment := false, canHandleDynamicData := false, isADynamicModel := false,
        pivotParameterId := "time", supervisedContainer := [returnInstance "svl"],
        historySteps := [], trainingSet := none, seed := none,
        assemblerDict := [] } :=
  ((serialize_restore_untrained _ rfl).1).trans (by simp)

/-- C4: when the configured backend natively handles time-dependent data and no
segmentation is configured, a successful `train` delegates to the single held
instance with exactly one fit on the full training set, and the façade still
holds exactly one backend instance afterwards. -/
theorem train_native_dynamic_single_instance (r : ROMState) (b : Backend)
    (ts : TrainingSet) (r' : ROMState)
    (hsg : r.segment = false) (hch : r.canHandleDynamicData = true)
    (hc : r.supervisedContainer = [b])
    (hok : r.train (.data ts) = .ok r') :
    r'.supervisedContainer = [(b.setAssembledObjects r.assemblerDict).train ts] ∧
    (r'.supervisedContainer.map Backend.fitHistory) = [b.fitHistory ++ [ts]] ∧
    r'.amITrained = true := by
  unfold ROMState.train trainCore at hok
  rw [hsg, hch, hc] at hok
  cases hd : isDynamicSet ts with
  | false =>
    simp only [hd, Bool.false_eq_true, if_false, Except.ok.injEq] at hok
    subst hok
    refine ⟨rfl, ?_, rfl⟩
    simp [Backend.train, Backend.setAssembledObjects]
  | true =>
    simp only [hd, if_true] at hok
    cases hpv : alookup ts r.pivotParameterId with
    | none => simp [hpv] at hok
    | some v =>
      cases v with
      | flat xs => simp [hpv] at hok
      | hist rlz =>
        simp only [hpv] at hok
        cases hl : rlz.getLast? with
        | none => simp [hl] at hok
        | some hsteps =>
          simp only [hl] at hok
          cases he : hsteps.isEmpty with
          | true => simp [he] at hok
          | false =>
            simp only [he, Bool.false_eq_true, if_false, if_true,
              Except.ok.injEq] at hok
            subst hok
            refine ⟨?_, ?_, rfl⟩
            · simp [trainLast]
            · simp [trainLast, Backend.train, Backend.setAssembledObjects]

/-- Witness façade for C4: native dynamic handling on a two-step history. -/
def c4Facade : ROMState :=
  { name := "rom", subType := "arma", amITrained := false, pickled := false,
    segment := false, canHandleDynamicData := true, isADynamicModel := false,
    pivotParameterId := "time", supervisedContainer := [returnInstance "arma"],
    historySteps := [], trainingSet := none, seed := none, assemblerDict := [] }

/-- Witness training set for C4: one realization over two time steps. -/
def c4TS : TrainingSet :=
  [("x", .hist [[1, 2]]), ("time", .hist [[0, 1]]), ("y", .hist [[5, 6]])]

/-- The façade produced by the C4 witness training call. -/
def c4After : ROMState :=
  match c4Facade.train (.data c4TS) with
  | .ok s => s
  | .error e => e.2

/-- Witness for C4: the concrete native-dynamic training run keeps one
instance, fitted exactly once on the full training set. -/
theorem train_native_dynamic_single_instance_witness :
    c4After.supervisedContainer =
      [((returnInstance "arma").setAssembledObjects c4Facade.assemblerDict).train c4TS] ∧
    (c4After.supervisedContainer.map Backend.fitHistory) =
      [(returnInstance "arma").fitHistory ++ [c4TS]] ∧
    c4After.amITrained = true :=
  train_native_dynamic_single_instance c4Facade (returnInstance "arma") c4TS c4After
    rfl rfl rfl rfl

/-- A successful `historySnapShoots` returns one slice per time step. -/
theorem historySnapShoots_length (ts : TrainingSet) (n : Nat)
    (slices : List TrainingSet) (h : historySnapShoots ts n = .ok slices) :
    slices.length = n := by
  unfold historySnapShoots at h
  split at h
  · simp only [Except.ok.injEq] at h
    subst h
    simp
  · simp at h

/-- C2: on a dynamic training set that the backend cannot natively handle (no
segmentation), `train` replaces the single configured-but-untrained instance
with one deep-copied clone per time step of the last realization's pivot
sequence, fits clone `i` on the `i`-th per-timestep slice, and sets the
trained flag.  (The source triggers this branch when ANY value of the training
set is a sequence-of-sequences, which holds in particular when a target value
is one; the slicing itself lives in `mathUtils.historySnapShoots`, modelled
from the spec.) -/
theorem train_dynamic_builds_per_timestep_chain (r : ROMState) (b : Backend)
    (ts : TrainingSet) (rlz : List (List Int)) (hsteps : List Int)
    (slices : List TrainingSet)
    (hsg : r.segment = false) (hch : r.canHandleDynamicData = false)
    (hc : r.supervisedContainer = [b]) (hbt : b.trained = false)
    (hdyn : isDynamicSet ts = true)
    (hpv : alookup ts r.pivotParameterId = some (.hist rlz))
    (hlast : rlz.getLast? = some hsteps) (hne : hsteps ≠ [])
    (hsl : historySnapShoots ts hsteps.length = .ok slices) :
    ∃ r', r.train (.data ts) = .ok r' ∧
      r'.supervisedContainer =
        slices.map (fun s => (b.setAssembledObjects r.assemblerDict).train s) ∧
      r'.supervisedContainer.length = hsteps.length ∧
      r'.amITrained = true ∧ r'.historySteps = hsteps := by
  have hemp : hsteps.isEmpty = false := by
    cases hsteps with
    | nil => exact absurd rfl hne
    | cons a t => rfl
  have hok : r.train (.data ts) =
      .ok { r with trainingSet := some ts,
                   supervisedContainer :=
                     slices.map (fun s => (b.setAssembledObjects r.assemblerDict).train s),
                   isADynamicModel := true, historySteps := hsteps,
                   amITrained := true } := by
    unfold ROMState.train trainCore
    rw [hsg, hch, hc]
    simp only [hdyn, if_true, hpv, hlast, hemp, Bool.false_eq_true, if_false]
    rw [hsl]
    simp
  refine ⟨_, hok, rfl, ?_, rfl, rfl⟩
  rw [List.length_map]
  exact historySnapShoots_length ts hsteps.length slices hsl

/-- Witness façade for C2: backend without native dynamic handling. -/
def c2Facade : ROMState :=
  { name := "rom", subType := "svl", amITrained := false, pickled := false,
    segment := false, canHandleDynamicData := false, isADynamicModel := false,
    pivotParameterId := "time", supervisedContainer := [returnInstance "svl"],
    historySteps := [], trainingSet := none, seed := none, assemblerDict := [] }

/-- Witness training set for C2: three realizations of a five-step history. -/
def c2TS : TrainingSet :=
  [("x", .hist [[1, 2, 3, 4, 5], [6, 7, 8, 9, 10], [11, 12, 13, 14, 15]]),
   ("time", .hist [[0, 1, 2, 3, 4], [0, 1, 2, 3, 4], [0, 1, 2, 3, 4]]),
   ("y", .hist [[1, 1, 1, 1, 1], [2, 2, 2, 2, 2], [3, 3, 3, 3, 3]])]

/-- The five per-timestep slices of the C2 witness training set. -/
def c2Slices : List TrainingSet :=
  match historySnapShoots c2TS 5 with
  | .ok s => s
  | .error _ => []

/-- Witness for C2: the concrete five-step training run builds five clones. -/
theorem train_dynamic_builds_per_timestep_chain_witness :
    ∃ r', c2Facade.train (.data c2TS) = .ok r' ∧
      r'.supervisedContainer =
        c2Slices.map
          (fun s => ((returnInstance "svl").setAssembledObjects c2Facade.assemblerDict).train s) ∧
      r'.supervisedContainer.length = (([0, 1, 2, 3, 4] : List Int)).length ∧
      r'.amITrained = true ∧ r'.historySteps = ([0, 1, 2, 3, 4] : List Int) :=
  train_dynamic_builds_per_timestep_chain c2Facade (returnInstance "svl") c2TS
    [[0, 1, 2, 3, 4], [0, 1, 2, 3, 4], [0, 1, 2, 3, 4]] [0, 1, 2, 3, 4] c2Slices
    rfl rfl rfl rfl rfl rfl rfl (by decide) rfl

/-- C6: on a dynamic training set (no segmentation), `train` raises a
data-consistency error — and the trained flag is left unchanged, so the façade
does not become trained — when the pivot variable is missing from the training
set, when its value is not a sequence-of-sequences, or when the last
realization's pivot sequence is empty. -/
theorem train_dynamic_pivot_errors (r : ROMState) (b : Backend)
    (bs : List Backend) (ts : TrainingSet)
    (hsg : r.segment = false) (hc : r.supervisedContainer = b :: bs)
    (hdyn : isDynamicSet ts = true) :
    (alookup ts r.pivotParameterId = none →
      ∃ st, r.train (.data ts) = .error (.pivotMissing, st) ∧
        st.amITrained = r.amITrained) ∧
    (∀ xs, alookup ts r.pivotParameterId = some (.flat xs) →
      ∃ st, r.train (.data ts) = .error (.pivotNotAList, st) ∧
        st.amITrained = r.amITrained) ∧
    (∀ rlz, alookup ts r.pivotParameterId = some (.hist rlz) →
      rlz.getLast? = some [] →
      ∃ st, r.train (.data ts) = .error (.emptyTrainingSet, st) ∧
        st.amITrained = r.amITrained) := by
  refine ⟨fun hpv => ?_, fun xs hpv => ?_, fun rlz hpv hlast => ?_⟩
  · refine ⟨{ r with trainingSet := some ts,
                     supervisedContainer := b.setAssembledObjects r.assemblerDict :: bs,
                     isADynamicModel := true || r.isADynamicModel }, ?_, rfl⟩
    unfold ROMState.train trainCore
    rw [hsg, hc]
    simp only [hdyn, if_true, hpv, Bool.false_eq_true, if_false]
    rfl
  · refine ⟨{ r with trainingSet := some ts,
                     supervisedContainer := b.setAssembledObjects r.assemblerDict :: bs,
                     isADynamicModel := true || r.isADynamicModel }, ?_, rfl⟩
    unfold ROMState.train trainCore
    rw [hsg, hc]
    simp only [hdyn, if_true, hpv, Bool.false_eq_true, if_false]
    rfl
  · refine ⟨{ r with trainingSet := some ts,
                     supervisedContainer := b.setAssembledObjects r.assemblerDict :: bs,
                     isADynamicModel := true || r.isADynamicModel,
                     historySteps := [] }, ?_, rfl⟩
    unfold ROMState.train trainCore
    rw [hsg, hc]
    simp only [hdyn, if_true, hpv, Bool.false_eq_true, if_false]
    rw [hlast]
    rfl

/-- Witness façade for C6. -/
def c6Facade : ROMState :=
  { name := "rom", subType := "svl", amITrained := false, pickled := false,
    segment := false, canHandleDynamicData := false, isADynamicModel := false,
    pivotParameterId := "time", supervisedContainer := [returnInstance "svl"],
    historySteps := [], trainingSet := none, seed := none, assemblerDict := [] }

/-- Witness for C6 at three concrete faulty training sets: pivot absent, pivot
a flat sequence, and an empty last pivot sequence. -/
theorem train_dynamic_pivot_errors_witness :
    (∃ st, c6Facade.train (.data [("y", .hist [[1]])]) =
      .error (.pivotMissing, st) ∧ st.amITrained = c6Facade.amITrained) ∧
    (∃ st, c6Facade.train (.data [("y", .hist [[1]]), ("time", .flat [0])]) =
      .error (.pivotNotAList, st) ∧ st.amITrained = c6Facade.amITrained) ∧
    (∃ st, c6Facade.train (.data [("y", .hist [[1]]), ("time", .hist [[0], []])]) =
      .error (.emptyTrainingSet, st) ∧ st.amITrained = c6Facade.amITrained) :=
  ⟨(train_dynamic_pivot_errors c6Facade (returnInstance "svl") []
      [("y", .hist [[1]])] rfl rfl rfl).1 rfl,
   (train_dynamic_pivot_errors c6Facade (returnInstance "svl") []
      [("y", .hist [[1]]), ("time", .flat [0])] rfl rfl rfl).2.1 [0] rfl,
   (train_dynamic_pivot_errors c6Facade (returnInstance "svl") []
      [("y", .hist [[1]]), ("time", .hist [[0], []])] rfl rfl rfl).2.2
      [[0], []] rfl rfl⟩

/-- If every accumulated key is present in the slice, `appendEach` succeeds and
extends each accumulated array with the slice's value for its key. -/
theorem appendEach_ok (slice : ResultDict) (acc : ResultDict)
    (h : ∀ p ∈ acc, (alookup slice p.1).isSome) :
    appendEach slice acc =
      .ok (acc.map (fun p => (p.1, p.2 ++ (alookup slice p.1).getD []))) := by
  induction acc with
  | nil => rfl
  | cons q rest ih =>
    obtain ⟨k, v⟩ := q
    have hk : (alookup slice k).isSome := h (k, v) (by simp)
    obtain ⟨w, hw⟩ := Option.isSome_iff_exists.mp hk
    have ih2 := ih (fun p hp => h p (List.mem_cons_of_mem _ hp))
    simp only [appendEach]
    rw [hw, ih2]
    simp [hw]

/-- The `evaluate` container loop, started from a non-empty accumulated
dictionary whose keys all trained chain members can serve, extends every
accumulated array with one segment per chain member, in chain order. -/
theorem evalLoop_concat (predict : Backend → Request → ResultDict) (req : Request)
    (bs : List Backend) :
    ∀ acc : ResultDict, acc ≠ [] →
    (∀ b ∈ bs, b.trained = true) →
    (∀ b ∈ bs, ∀ p ∈ acc, (alookup (predict b req) p.1).isSome) →
    evalLoop predict req bs acc =
      .ok (acc.map (fun p => (p.1, p.2 ++
        (bs.map (fun b => (alookup (predict b req) p.1).getD [])).flatten))) := by
  induction bs with
  | nil =>
    intro acc hne htr hk
    simp [evalLoop]
  | cons b rest ih =>
    intro acc hne htr hk
    have hb : b.trained = true := htr b (by simp)
    have hacc : accumulateSlice acc (predict b req) =
        .ok (acc.map (fun p =>
          (p.1, p.2 ++ (alookup (predict b req) p.1).getD []))) := by
      unfold accumulateSlice
      rw [if_neg (by simpa using hne)]
      exact appendEach_ok _ _ (hk b (by simp))
    have hne2 : acc.map (fun p =>
        (p.1, p.2 ++ (alookup (predict b req) p.1).getD [])) ≠ [] := by
      intro hmap
      exact hne (by simpa using hmap)
    have htr2 : ∀ b2 ∈ rest, b2.trained = true :=
      fun b2 h2 => htr b2 (List.mem_cons_of_mem _ h2)
    have hk2 : ∀ b2 ∈ rest, ∀ p ∈ acc.map (fun p =>
        (p.1, p.2 ++ (alookup (predict b req) p.1).getD [])),
        (alookup (predict b2 req) p.1).isSome := by
      intro b2 h2 p hp
      obtain ⟨q, hq, rfl⟩ := List.mem_map.mp hp
      exact hk b2 (List.mem_cons_of_mem _ h2) q hq
    simp only [evalLoop, Backend.run, hb, if_true]
    rw [hacc]
    simp only []
    rw [ih _ hne2 htr2 hk2]
    simp [List.map_map, Function.comp, List.append_assoc]

/-- C3: a trained, non-segmented façade holding a chain of backend instances
evaluates by iterating the chain in order: every target key of the first
instance's result is extended with each subsequent instance's result for that
key, so each target's array is exactly one concatenated segment per chain
member (`rest.length + 1` segments), in chain (pivot) order. -/
theorem evaluate_chain_concatenates_segments (r : ROMState)
    (b0 : Backend) (rest : List Backend)
    (predict : Backend → Request → ResultDict) (req : Request)
    (hp : r.pickled = false) (ht : r.amITrained = true) (hsg : r.segment = false)
    (hc : r.supervisedContainer = b0 :: rest)
    (htr : ∀ b ∈ r.supervisedContainer, b.trained = true)
    (hne : predict b0 req ≠ [])
    (hk : ∀ b ∈ rest, ∀ p ∈ predict b0 req,
      (alookup (predict b req) p.1).isSome) :
    r.evaluate predict req =
      .ok ((predict b0 req).map (fun p => (p.1, p.2 ++
        (rest.map (fun b => (alookup (predict b req) p.1).getD [])).flatten))) ∧
    r.supervisedContainer.length = rest.length + 1 := by
  have h0 : b0.trained = true := htr b0 (by rw [hc]; simp)
  have htr2 : ∀ b ∈ rest, b.trained = true :=
    fun b h2 => htr b (by rw [hc]; exact List.mem_cons_of_mem _ h2)
  have hev : r.evaluate predict req = evalLoop predict req (b0 :: rest) [] := by
    unfold ROMState.evaluate
    rw [hp, ht, hsg, hc]
    simp
  refine ⟨?_, by rw [hc]; simp⟩
  rw [hev]
  simp only [evalLoop, Backend.run, h0, if_true, accumulateSlice,
    List.isEmpty_nil]
  exact evalLoop_concat predict req rest (predict b0 req) hne htr2 hk

/-- Witness chain for C3: two trained clones. -/
def c3Chain : List Backend :=
  [(returnInstance "svl").train [("y", .flat [1])],
   (returnInstance "svl").train [("y", .flat [2])]]

/-- Witness façade for C3: trained, holding the two-instance chain. -/
def c3Facade : ROMState :=
  { name := "rom", subType := "svl", amITrained := true, pickled := false,
    segment := false, canHandleDynamicData := false, isADynamicModel := true,
    pivotParameterId := "time", supervisedContainer := c3Chain,
    historySteps := [0, 1], trainingSet := none, seed := none,
    assemblerDict := [] }

/-- Witness prediction function for C3. -/
def c3Predict : Backend → Request → ResultDict := fun _ _ => [("y", [7])]

/-- Witness for C3: the two-step chain returns two concatenated segments. -/
theorem evaluate_chain_concatenates_segments_witness :
    c3Facade.evaluate c3Predict [] =
      .ok ((c3Predict ((returnInstance "svl").train [("y", .flat [1])]) []).map
        (fun p => (p.1, p.2 ++
          (([(returnInstance "svl").train [("y", .flat [2])]]).map
            (fun b => (alookup (c3Predict b []) p.1).getD [])).flatten))) ∧
    c3Facade.supervisedContainer.length =
      ([(returnInstance "svl").train [("y", .flat [2])]]).length + 1 :=
  evaluate_chain_concatenates_segments c3Facade
    ((returnInstance "svl").train [("y", .flat [1])])
    [(returnInstance "svl").train [("y", .flat [2])]] c3Predict []
    rfl rfl rfl rfl (by decide) (by decide) (by decide)

/-- `evaluate` reads only the pickled flag, the trained flag, the segment flag
and the container; two façades agreeing on those evaluate identically. -/
theorem evaluate_ext (a c : ROMState) (hp : a.pickled = c.pickled)
    (ht : a.amITrained = c.amITrained) (hs : a.segment = c.segment)
    (hc : a.supervisedContainer = c.supervisedContainer)
    (predict : Backend → Request → ResultDict) (req : Request) :
    a.evaluate predict req = c.evaluate predict req := by
  unfold ROMState.evaluate
  rw [hp, ht, hs, hc]

/-- The observation a caller makes of a training outcome: a failed `train`
surfaces its error, a successful one is observed through `evaluate`. -/
def evalResult (t : Except (RomError × ROMState) ROMState)
    (predict : Backend → Request → ResultDict) (req : Request) :
    Except RomError ResultDict :=
  match t with
  | .error e => .error e.1
  | .ok s => s.evaluate predict req

/-- Equational form of `ROM.train` on a training set, with the `trainCore`
dispatch at the head. -/
theorem train_data_eq (r : ROMState) (ts : TrainingSet) :
    r.train (.data ts) =
      match trainCore r.segment r.canHandleDynamicData r.pivotParameterId
          r.assemblerDict r.supervisedContainer ts with
      | .error (e, c, dyn, hs) =>
          .error (e, { r with trainingSet := some ts, supervisedContainer := c,
                              isADynamicModel := dyn || r.isADynamicModel,
                              historySteps := hs.getD r.historySteps })
      | .ok (c, dyn, hs) =>
          .ok { r with trainingSet := some ts, supervisedContainer := c,
                       isADynamicModel := dyn || r.isADynamicModel,
                       historySteps := hs.getD r.historySteps,
                       amITrained := true } :=
  rfl

/-- Amended C7: reset-then-retrain is observably equivalent to training a
fresh, identically configured façade provided resetting the held container
reproduces the fresh façade's container — which holds when the previously
trained façade kept a single instance (static, segmented or natively-dynamic
training) but fails for a multi-instance per-timestep chain, since `reset`
preserves the chain length (see the counterexample). -/
theorem reset_retrain_equiv_single_instance (r g : ROMState) (ts : TrainingSet)
    (predict : Backend → Request → ResultDict) (req : Request)
    (hpk : r.pickled = g.pickled) (hsg : r.segment = g.segment)
    (hch : r.canHandleDynamicData = g.canHandleDynamicData)
    (hpv : r.pivotParameterId = g.pivotParameterId)
    (had : r.assemblerDict = g.assemblerDict)
    (hct : r.supervisedContainer.map Backend.reset = g.supervisedContainer) :
    evalResult ((r.reset).train (.data ts)) predict req
      = evalResult (g.train (.data ts)) predict req := by
  have h1 : r.reset.segment = g.segment := hsg
  have h2 : r.reset.canHandleDynamicData = g.canHandleDynamicData := hch
  have h3 : r.reset.pivotParameterId = g.pivotParameterId := hpv
  have h4 : r.reset.assemblerDict = g.assemblerDict := had
  have h5 : r.reset.supervisedContainer = g.supervisedContainer := hct
  rw [train_data_eq, train_data_eq, h1, h2, h3, h4, h5]
  cases htc : trainCore g.segment g.canHandleDynamicData g.pivotParameterId
      g.assemblerDict g.supervisedContainer ts with
  | error e =>
    obtain ⟨e1, c1, dyn1, hs1⟩ := e
    rfl
  | ok v =>
    obtain ⟨c, dyn, hsteps⟩ := v
    simp only [evalResult]
    apply evaluate_ext
    · exact hpk
    · rfl
    · rfl
    · rfl

/-- Witness for the amended C7: a statically-trained single-instance façade,
reset and retrained, evaluates like the fresh façade. -/
theorem reset_retrain_equiv_single_instance_witness :
    evalResult
      ((ROMState.reset
        { name := "rom", subType := "svl", amITrained := true, pickled := false,
          segment := false, canHandleDynamicData := false, isADynamicModel := false,
          pivotParameterId := "time",
          supervisedContainer := [(returnInstance "svl").train [("y", .flat [1])]],
          historySteps := [], trainingSet := some [("y", .flat [1])], seed := none,
          assemblerDict := [] }).train (.data [("y", .flat [2])]))
      (fun _ _ => [("y", [3])]) []
    = evalResult
      (({ name := "rom", subType := "svl", amITrained := false, pickled := false,
          segment := false, canHandleDynamicData := false, isADynamicModel := false,
          pivotParameterId := "time", supervisedContainer := [returnInstance "svl"],
          historySteps := [], trainingSet := none, seed := none,
          assemblerDict := [] } : ROMState).train (.data [("y", .flat [2])]))
      (fun _ _ => [("y", [3])]) [] :=
  reset_retrain_equiv_single_instance _ _ [("y", .flat [2])] (fun _ _ => [("y", [3])]) []
    rfl rfl rfl rfl rfl (by decide)

/-- C7 counterexample ingredients: a fresh façade over a backend without
native dynamic handling. -/
def c7Fresh : ROMState :=
  { name := "rom", subType := "svl", amITrained := false, pickled := false,
    segment := false, canHandleDynamicData := false, isADynamicModel := false,
    pivotParameterId := "time", supervisedContainer := [returnInstance "svl"],
    historySteps := [], trainingSet := none, seed := none, assemblerDict := [] }

/-- A dynamic training set with one realization over two time steps. -/
def c7DynTS : TrainingSet :=
  [("x", .hist [[1, 2]]), ("time", .hist [[0, 1]]), ("y", .hist [[3, 4]])]

/-- A static training set over the same variables. -/
def c7StatTS : TrainingSet := [("x", .flat [1]), ("y", .flat [3])]

/-- The façade after dynamic training (it holds a two-instance chain). -/
def c7Trained : ROMState :=
  match c7Fresh.train (.data c7DynTS) with
  | .ok s => s
  | .error e => e.2

/-- The previously-trained façade after `reset()` and static retraining. -/
def c7ResetRetrained : ROMState :=
  match (c7Trained.reset).train (.data c7StatTS) with
  | .ok s => s
  | .error e => e.2

/-- The fresh façade after static training. -/
def c7FreshRetrained : ROMState :=
  match c7Fresh.train (.data c7StatTS) with
  | .ok s => s
  | .error e => e.2

/-- A concrete backend prediction function for the counterexample. -/
def c7Predict : Backend → Request → ResultDict := fun _ _ => [("y", [0])]

/-- Whether an `Except` value is a success. -/
def exceptIsOk {ε α : Type} : Except ε α → Bool
  | .ok _ => true
  | .error _ => false

/-- Counterexample to C7 as stated: after training the fresh façade on a
two-step dynamic set (so the container holds a two-instance chain), `reset()`
followed by `train()` on a static set is NOT observably equivalent to training
the identically configured fresh façade on that set — the reset façade keeps a
stale second chain member, which is untrained at evaluation time. -/
theorem reset_retrain_counterexample :
    exceptIsOk (c7Fresh.train (.data c7DynTS)) = true ∧
    c7Trained.amITrained = true ∧
    c7Trained.supervisedContainer.length = 2 ∧
    exceptIsOk ((c7Trained.reset).train (.data c7StatTS)) = true ∧
    exceptIsOk (c7Fresh.train (.data c7StatTS)) = true ∧
    c7ResetRetrained.evaluate c7Predict [] = .error .backendNotTrained ∧
    c7FreshRetrained.evaluate c7Predict [] = .ok [("y", [0])] ∧
    c7ResetRetrained.evaluate c7Predict [] ≠ c7FreshRetrained.evaluate c7Predict [] := by
  refine ⟨rfl, rfl, rfl, rfl, rfl, rfl, rfl, ?_⟩
  intro h
  rw [show c7ResetRetrained.evaluate c7Predict [] = .error .backendNotTrained from rfl,
      show c7FreshRetrained.evaluate c7Predict [] = .ok [("y", [0])] from rfl] at h
  exact Except.noConfusion h

/-- A configuration value of the input-specification layer (`ConfigValue.null`
models Python `None`, which the source passes as an explicit default). -/
inductive ConfigValue where
  | str (s : String)
  | int (n : Int)
  | bool (b : Bool)
  | rat (q : Rat)
  | floatList (l : List Rat)
  | null
deriving DecidableEq, Repr

/-- The seven parameters declared by
`LinearDiscriminantAnalysisClassifier.getInputSpecification`, each paired with
its declared default value (every `addSub` call passes `default=...`). -/
def ldaDeclaredParams : List (String × Option ConfigValue) :=
  [("solver", some (.str "svd")),
   ("Shrinkage", some .null),
   ("priors", some .null),
   ("n_components", some .null),
   ("store_covariance", some (.bool false)),
   ("tol", some (.rat (1 / 10000))),
   ("covariance_estimator", some .null)]

/-- The seven parameter names `_handleInput` extracts. -/
def ldaParamNames : List String :=
  ["solver", "Shrinkage", "priors", "n_components", "store_covariance", "tol",
   "covariance_estimator"]

/-- Modelled from the spec: `InputData.findNodesAndExtractValues` (not under
the reviewed sources): for each requested name, take the node's value when the
parsed input has such a node, otherwise the schema default when one is
declared, otherwise report the name as not found. -/
def findNodesAndExtractValues (specs : List (String × Option ConfigValue))
    (input : List (String × ConfigValue)) :
    List String → (List (String × ConfigValue)) × List String
  | [] => ([], [])
  | n :: names =>
    let found := findNodesAndExtractValues specs input names
    match alookup input n with
    | some v => ((n, v) :: found.1, found.2)
    | none =>
      match alookup specs n with
      | some (some d) => ((n, d) :: found.1, found.2)
      | _ => (found.1, n :: found.2)

/-- Whether a schema declares the named parameter with a default value. -/
def hasDeclaredDefault (specs : List (String × Option ConfigValue))
    (n : String) : Bool :=
  match alookup specs n with
  | some (some _) => true
  | _ => false

/-- `LinearDiscriminantAnalysisClassifier._handleInput`: extract the seven
declared parameters and assert that none is missing. -/
def ldaHandleInput (input : List (String × ConfigValue)) :
    Except RomError (List (String × ConfigValue)) :=
  let res := findNodesAndExtractValues ldaDeclaredParams input ldaParamNames
  if res.2.isEmpty then .ok res.1 else .error .assertionError

/-- When every requested name is declared with a default, no name ends up in
the not-found list, whatever the parsed input contains. -/
theorem findNodes_notFound_nil (specs : List (String × Option ConfigValue))
    (input : List (String × ConfigValue)) (names : List String)
    (h : ∀ n ∈ names, hasDeclaredDefault specs n = true) :
    (findNodesAndExtractValues specs input names).2 = [] := by
  induction names with
  | nil => rfl
  | cons n rest ih =>
    have hn : hasDeclaredDefault specs n = true := h n (by simp)
    have ih2 := ih (fun m hm => h m (List.mem_cons_of_mem _ hm))
    simp only [findNodesAndExtractValues]
    cases hin : alookup input n with
    | some v => simpa using ih2
    | none =>
      unfold hasDeclaredDefault at hn
      cases hspec : alookup specs n with
      | none => rw [hspec] at hn; exact absurd hn (by simp)
      | some d =>
        cases d with
        | none => rw [hspec] at hn; exact absurd hn (by simp)
        | some dv => simpa [hspec] using ih2

/-- C10: for every parsed configuration document, the extraction of the seven
declared LDA parameters leaves the not-found set empty — each is declared in
the schema with a default — so the `assert(not notFound)` that follows never
fires and `_handleInput` succeeds. -/
theorem lda_handleInput_never_asserts (input : List (String × ConfigValue)) :
    (findNodesAndExtractValues ldaDeclaredParams input ldaParamNames).2 = [] ∧
    ldaHandleInput input =
      .ok (findNodesAndExtractValues ldaDeclaredParams input ldaParamNames).1 := by
  have h : (findNodesAndExtractValues ldaDeclaredParams input ldaParamNames).2 = [] :=
    findNodes_notFound_nil ldaDeclaredParams input ldaParamNames (by decide)
  refine ⟨h, ?_⟩
  unfold ldaHandleInput
  simp only []
  rw [h]
  rfl
